import Mathlib

/-!
# PageAllocator (src/engine/page_allocator.cpp)

A shallow embedding of `Lumix::PageAllocator`: the constructor, the destructor,
`allocate` and `deallocate`, run sequentially. Addresses are natural numbers.
Calls into external collaborators (the OS page primitive and the mutex) are
recorded, in call order, in a trace carried by the allocator state.

The header `engine/page_allocator.h` is not among the sources, so the declared
types of the two counters are not known: `allocated_count` is an unbounded
integer (it is decremented by `deallocate` without any check) and
`reserved_count` an unbounded natural number.
-/

namespace Lumix

/-- A page address (`void*` read through `uintptr`). -/
abbrev Addr := Nat

/-- Calls made to the external collaborators, as they appear in the source:
`mutex.enter()`, `mutex.exit()`, `os::memReserve(size)` together with the address
it returned, `os::memCommit(mem, size)` and `os::memRelease(mem, size)`. -/
inductive Event where
  | mutexEnter
  | mutexExit
  | memReserve (size : Nat) (ret : Addr)
  | memCommit (mem : Addr) (size : Nat)
  | memRelease (mem : Addr) (size : Nat)
  deriving DecidableEq, Repr

/-- The environment of the allocator: the compile-time constant `PAGE_SIZE`
(declared in the header), the value of `os::getMemPageAlignment()` and the
answers of `os::memReserve`: `memReserve k size` is the address returned by the
call number `k` (counting from 0) when asked for `size` bytes. -/
structure Env where
  PAGE_SIZE : Nat
  getMemPageAlignment : Nat
  memReserve : Nat → Nat → Addr

/-- Addresses returned by the `os::memReserve` calls of a trace, in call order. -/
def reservedAddrs : List Event → List Addr
  | [] => []
  | Event.memReserve _ ret :: es => ret :: reservedAddrs es
  | _ :: es => reservedAddrs es

/-- The `(address, size)` arguments of the `os::memRelease` calls of a trace, in
call order. -/
def releases : List Event → List (Addr × Nat)
  | [] => []
  | Event.memRelease mem size :: es => (mem, size) :: releases es
  | _ :: es => releases es

/-- The `(address, size)` arguments of the `os::memCommit` calls of a trace, in
call order. -/
def commits : List Event → List (Addr × Nat)
  | [] => []
  | Event.memCommit mem size :: es => (mem, size) :: commits es
  | _ :: es => commits es

/-- Number of `mutex.enter()` calls of a trace. -/
def mutexEnters : List Event → Nat
  | [] => 0
  | Event.mutexEnter :: es => mutexEnters es + 1
  | _ :: es => mutexEnters es

/-- Modelled from the spec: the free-list store (the type of the member
`free_pages`, declared in headers that are not among the sources). It is "a
lock-free primary list plus a mutex-guarded secondary list, both holding raw
page addresses", each a stack whose top is the head of the list. -/
structure FreeList where
  primary : List Addr
  secondary : List Addr
  deriving DecidableEq, Repr

namespace FreeList

/-- Modelled from the spec: `free_pages.pop(p)`, the "lock-free pop from the
primary list". Returns the popped address and the remaining store, or `none`
(the source's `false`) when the primary list is empty. -/
def pop (f : FreeList) : Option (Addr × FreeList) :=
  match f.primary with
  | [] => none
  | p :: rest => some (p, { f with primary := rest })

/-- Modelled from the spec: `free_pages.popSecondary(p)`, the "pop from the
secondary list". -/
def popSecondary (f : FreeList) : Option (Addr × FreeList) :=
  match f.secondary with
  | [] => none
  | p :: rest => some (p, { f with secondary := rest })

/-- Modelled from the spec: `free_pages.push(obj, mutex)`, which "pushes the
address onto the primary free list (lock-free), optionally taking the mutex
first" when a mutex is passed. Returns the new store and the mutex calls made. -/
def push (f : FreeList) (obj : Addr) (mutex : Bool) : FreeList × List Event :=
  ({ f with primary := obj :: f.primary },
    if mutex then [Event.mutexEnter, Event.mutexExit] else [])

end FreeList

/-- The state of a `PageAllocator`: its data members `free_pages`,
`allocated_count` and `reserved_count`, and the trace of the calls it has made to
the OS and to its mutex so far. -/
structure PageAllocator where
  free_pages : FreeList
  allocated_count : Int
  reserved_count : Nat
  trace : List Event
  deriving DecidableEq, Repr

namespace PageAllocator

/-- Records one call to an external collaborator. -/
def log (s : PageAllocator) (e : Event) : PageAllocator :=
  { s with trace := s.trace ++ [e] }

/-- The freshly constructed state: empty free lists, both counters at their
default member initialiser 0, no call made yet. -/
def fresh : PageAllocator :=
  { free_pages := { primary := [], secondary := [] },
    allocated_count := 0, reserved_count := 0, trace := [] }

/-- The condition of the constructor's assertion,
`os::getMemPageAlignment() % PAGE_SIZE == 0`. -/
def ctorAssert (env : Env) : Bool :=
  env.getMemPageAlignment % env.PAGE_SIZE == 0

/-- `PageAllocator::PageAllocator`: the assertion, then the fresh state. A
failed assertion is fatal (`none`). -/
def ctor (env : Env) : Option PageAllocator :=
  if ctorAssert env then some fresh else none

/-- The condition of the assertion in `allocate`,
`uintptr(mem) % PAGE_SIZE == 0`. -/
def allocAssert (env : Env) (mem : Addr) : Bool :=
  mem % env.PAGE_SIZE == 0

/-- `PageAllocator::allocate(bool lock)`. Returns the address and the new
state, or `none` when the alignment assertion fails (fatal). The call of
`os::memReserve` is the one numbered by the reserve calls already in the trace. -/
def allocate (env : Env) (s : PageAllocator) (lock : Bool) :
    Option (Addr × PageAllocator) :=
  let s := { s with allocated_count := s.allocated_count + 1 }
  match s.free_pages.pop with
  | some (p, fp) => some (p, { s with free_pages := fp })
  | none =>
    let s := if lock then s.log Event.mutexEnter else s
    match s.free_pages.popSecondary with
    | some (p, fp) =>
      let s := { s with free_pages := fp }
      let s := if lock then s.log Event.mutexExit else s
      some (p, s)
    | none =>
      let s := { s with reserved_count := s.reserved_count + 1 }
      let s := if lock then s.log Event.mutexExit else s
      let mem := env.memReserve (reservedAddrs s.trace).length env.PAGE_SIZE
      let s := s.log (Event.memReserve env.PAGE_SIZE mem)
      if allocAssert env mem then
        let s := s.log (Event.memCommit mem env.PAGE_SIZE)
        some (mem, s)
      else none

/-- `PageAllocator::deallocate(void* mem, bool lock)`. -/
def deallocate (s : PageAllocator) (mem : Addr) (lock : Bool) : PageAllocator :=
  let s := { s with allocated_count := s.allocated_count - 1 }
  let r := s.free_pages.push mem lock
  { s with free_pages := r.1, trace := s.trace ++ r.2 }

/-- The loop `while (free_pages.pop(p)) os::memRelease(p, PAGE_SIZE);` of the
destructor, run for at most `fuel` iterations. -/
def drainPrimary (env : Env) : Nat → PageAllocator → PageAllocator
  | 0, s => s
  | fuel + 1, s =>
    match s.free_pages.pop with
    | none => s
    | some (p, fp) =>
      drainPrimary env fuel
        ({ s with free_pages := fp }.log (Event.memRelease p env.PAGE_SIZE))

/-- The loop `while (free_pages.popSecondary(p)) os::memRelease(p, PAGE_SIZE);`
of the destructor, run for at most `fuel` iterations. -/
def drainSecondary (env : Env) : Nat → PageAllocator → PageAllocator
  | 0, s => s
  | fuel + 1, s =>
    match s.free_pages.popSecondary with
    | none => s
    | some (p, fp) =>
      drainSecondary env fuel
        ({ s with free_pages := fp }.log (Event.memRelease p env.PAGE_SIZE))

/-- The condition of the destructor's assertion, `allocated_count == 0`. -/
def dtorAssert (s : PageAllocator) : Bool :=
  s.allocated_count == 0

/-- `PageAllocator::~PageAllocator`: the leak assertion (fatal, `none`, when it
fails), then the two draining loops, each given as many iterations as its list
has entries. -/
def dtor (env : Env) (s : PageAllocator) : Option PageAllocator :=
  if dtorAssert s then
    let s := drainPrimary env s.free_pages.primary.length s
    let s := drainSecondary env s.free_pages.secondary.length s
    some s
  else none

end PageAllocator

/-- One call of the public interface made by a caller. -/
inductive Op where
  | allocate (lock : Bool)
  | deallocate (mem : Addr) (lock : Bool)
  deriving DecidableEq, Repr

/-- A sequential run in progress: the allocator, the addresses currently
outstanding (returned by `allocate` and not deallocated since, newest first) and
every address returned by `allocate` so far (newest first). -/
structure Session where
  pa : PageAllocator
  outstanding : List Addr
  returned : List Addr
  deriving DecidableEq, Repr

namespace Session

/-- The run that has just constructed its allocator. -/
def fresh : Session :=
  { pa := PageAllocator.fresh, outstanding := [], returned := [] }

/-- One call. `none` when an assertion of the allocator fails. -/
def step (env : Env) (st : Session) : Op → Option Session
  | Op.allocate lock =>
    match st.pa.allocate env lock with
    | some (p, pa) =>
      some { pa := pa, outstanding := p :: st.outstanding, returned := p :: st.returned }
    | none => none
  | Op.deallocate mem lock =>
    some { st with pa := st.pa.deallocate mem lock,
                   outstanding := st.outstanding.erase mem }

/-- The calls of a list, made one after the other. -/
def run (env : Env) : Session → List Op → Option Session
  | st, [] => some st
  | st, op :: ops =>
    match step env st op with
    | some st1 => run env st1 ops
    | none => none

/-- The caller contract of `deallocate`: the address was returned by an earlier
`allocate` and has not been deallocated since. -/
def callerOk (st : Session) : Op → Bool
  | Op.allocate _ => true
  | Op.deallocate mem _ => decide (mem ∈ st.outstanding)

/-- The weaker contract: the address was returned by some earlier `allocate`. -/
def returnedOk (st : Session) : Op → Bool
  | Op.allocate _ => true
  | Op.deallocate mem _ => decide (mem ∈ st.returned)

/-- Every call of the list, made in turn from `st`, satisfies the contract `ok`
in the state in which it is made (calls after a failed assertion are not made). -/
def respects (ok : Session → Op → Bool) (env : Env) : Session → List Op → Bool
  | _, [] => true
  | st, op :: ops =>
    ok st op &&
      match step env st op with
      | some st1 => respects ok env st1 ops
      | none => true

end Session

/-- Number of `allocate` calls of a list of calls. -/
def countAllocs : List Op → Nat
  | [] => 0
  | Op.allocate _ :: ops => countAllocs ops + 1
  | Op.deallocate _ _ :: ops => countAllocs ops

/-- Number of `deallocate` calls of a list of calls. -/
def countDeallocs : List Op → Nat
  | [] => 0
  | Op.allocate _ :: ops => countDeallocs ops
  | Op.deallocate _ _ :: ops => countDeallocs ops + 1

/-- An environment for examples: pages of 4096 bytes, an OS alignment of 65536
and an OS that hands out consecutive 64 KiB blocks. -/
def demoEnv : Env :=
  { PAGE_SIZE := 4096, getMemPageAlignment := 65536,
    memReserve := fun k _ => 65536 * (k + 1) }

/-! ## Predicates, reference behaviour and example runs -/

namespace PageAllocator

/-- The mutex calls `if (lock) mutex.enter();` or `if (lock) mutex.exit();`. -/
def lockEvents (lock : Bool) (e : Event) : List Event :=
  if lock then [e] else []

/-- The release calls made for the addresses of a list, in list order. -/
def releaseEvents (env : Env) (l : List Addr) : List Event :=
  l.map (fun p => Event.memRelease p env.PAGE_SIZE)

end PageAllocator

/-- Page conservation: every page obtained from the OS is either handed out or
cached in one of the two free lists. -/
def Conserved (s : PageAllocator) : Prop :=
  (s.reserved_count : Int) =
    s.allocated_count + s.free_pages.primary.length + s.free_pages.secondary.length

/-- The reserve calls of the trace are the calls number 0, 1, 2, ... of the OS,
each for `PAGE_SIZE` bytes. -/
def OsFaithful (env : Env) (s : PageAllocator) : Prop :=
  reservedAddrs s.trace =
    (List.range (reservedAddrs s.trace).length).map (fun k => env.memReserve k env.PAGE_SIZE)

/-- No page has been released to the OS. -/
def NoRelease (s : PageAllocator) : Prop :=
  releases s.trace = []

/-- Every `os::memReserve` call returns an address it has not returned before. -/
def ReserveDistinct (env : Env) : Prop :=
  ∀ i j : Nat, env.memReserve i env.PAGE_SIZE = env.memReserve j env.PAGE_SIZE → i = j

/-- Every address returned by `os::memReserve` is a multiple of `PAGE_SIZE`. -/
def ReserveAligned (env : Env) : Prop :=
  ∀ k : Nat, env.memReserve k env.PAGE_SIZE % env.PAGE_SIZE = 0

namespace Session

/-- The contract that allows every call. -/
def anyOk (_ : Session) (_ : Op) : Bool := true

end Session

/-- Exclusive ownership: the addresses in the two free lists and the outstanding
addresses are, taken together and counted with multiplicity, exactly the
addresses obtained from the OS. -/
def Owned (st : Session) : Prop :=
  (st.pa.free_pages.primary ++ st.pa.free_pages.secondary ++ st.outstanding).Perm
    (reservedAddrs st.pa.trace)

/-- The counter `allocated_count` is the number of outstanding addresses. -/
def Counted (st : Session) : Prop :=
  st.pa.allocated_count = (st.outstanding.length : Int)

/-- Every address in a free list and every address ever returned by `allocate`
is a multiple of `PAGE_SIZE`. -/
def Aligned (env : Env) (st : Session) : Prop :=
  ∀ a, a ∈ st.pa.free_pages.primary ++ st.pa.free_pages.secondary ++ st.returned →
    a % env.PAGE_SIZE = 0

/-- The OS calls of a trace (the mutex calls left out), in call order. -/
def osCalls : List Event → List Event
  | [] => []
  | Event.mutexEnter :: es => osCalls es
  | Event.mutexExit :: es => osCalls es
  | e :: es => e :: osCalls es

/-- The reference behaviour of `allocate` in the words of the spec, as a relation
between the state before, the returned address `p` and the state after.
Primary list non-empty: `p` is popped from the primary list, the secondary list
and `reserved_count` are unchanged, no OS call and no mutex acquisition.
Otherwise, secondary list non-empty: `p` is popped from the secondary list,
`reserved_count` is unchanged, no OS call. Otherwise: `reserved_count` grows by
one, the OS calls made are `os::memReserve(PAGE_SIZE)`, returning `p`, and then
`os::memCommit(p, PAGE_SIZE)`. -/
def AllocateRef (env : Env) (s : PageAllocator) (p : Addr) (s1 : PageAllocator) : Prop :=
  match s.free_pages.primary, s.free_pages.secondary with
  | q :: rest, sec =>
    p = q ∧ s1.free_pages.primary = rest ∧ s1.free_pages.secondary = sec ∧
      s1.reserved_count = s.reserved_count ∧ osCalls s1.trace = osCalls s.trace ∧
      mutexEnters s1.trace = mutexEnters s.trace
  | [], q :: rest =>
    p = q ∧ s1.free_pages.primary = [] ∧ s1.free_pages.secondary = rest ∧
      s1.reserved_count = s.reserved_count ∧ osCalls s1.trace = osCalls s.trace
  | [], [] =>
    s1.reserved_count = s.reserved_count + 1 ∧
      p = env.memReserve (reservedAddrs s.trace).length env.PAGE_SIZE ∧
      osCalls s1.trace = osCalls s.trace ++
        [Event.memReserve env.PAGE_SIZE p, Event.memCommit p env.PAGE_SIZE]

/-- The calls the allocator has made after two OS reservations (the first
`allocate` with `lock = true`) and one `deallocate` with `lock = true`. -/
def demoTrace : List Event :=
  [Event.mutexEnter, Event.mutexExit,
   Event.memReserve 4096 65536, Event.memCommit 65536 4096,
   Event.memReserve 4096 131072, Event.memCommit 131072 4096,
   Event.mutexEnter, Event.mutexExit]

/-- The allocator after the first `allocate(true)` of a fresh allocator: the page
65536 has been reserved from the OS and handed out. -/
def demoFirst : PageAllocator :=
  { free_pages := { primary := [], secondary := [] },
    allocated_count := 1, reserved_count := 1,
    trace := [Event.mutexEnter, Event.mutexExit,
              Event.memReserve 4096 65536, Event.memCommit 65536 4096] }

/-- Two pages allocated, the first one given back. -/
def demoOps : List Op :=
  [Op.allocate true, Op.allocate false, Op.deallocate 65536 true]

/-- The state reached by `demoOps`: one page outstanding, one cached. -/
def demoLive : Session :=
  { pa := { free_pages := { primary := [65536], secondary := [] },
            allocated_count := 1, reserved_count := 2, trace := demoTrace },
    outstanding := [131072], returned := [131072, 65536] }

/-- Two pages allocated, both given back. -/
def demoOpsDone : List Op :=
  [Op.allocate true, Op.allocate false, Op.deallocate 65536 true, Op.deallocate 131072 false]

/-- The state reached by `demoOpsDone`: nothing outstanding, two pages cached. -/
def demoDone : Session :=
  { pa := { free_pages := { primary := [131072, 65536], secondary := [] },
            allocated_count := 0, reserved_count := 2, trace := demoTrace },
    outstanding := [], returned := [131072, 65536] }

/-- A page allocated, given back, allocated again from the cache, and a second
page allocated from the OS. -/
def demoCacheOps : List Op :=
  [Op.allocate false, Op.deallocate 65536 false, Op.allocate false, Op.allocate false]

/-- The state reached by `demoCacheOps`. -/
def demoCache : Session :=
  { pa := { free_pages := { primary := [], secondary := [] },
            allocated_count := 2, reserved_count := 2,
            trace := [Event.memReserve 4096 65536, Event.memCommit 65536 4096,
                      Event.memReserve 4096 131072, Event.memCommit 131072 4096] },
    outstanding := [131072, 65536], returned := [131072, 65536, 65536] }

/-- The calls of an allocator that has reserved and committed three pages. -/
def demoSpillTrace : List Event :=
  [Event.memReserve 4096 65536, Event.memCommit 65536 4096,
   Event.memReserve 4096 131072, Event.memCommit 131072 4096,
   Event.memReserve 4096 196608, Event.memCommit 196608 4096]

/-- A run in progress whose three reserved pages are all cached, one in the
primary free list and two in the secondary free list. -/
def demoSpill : Session :=
  { pa := { free_pages := { primary := [65536], secondary := [131072, 196608] },
            allocated_count := 0, reserved_count := 3, trace := demoSpillTrace },
    outstanding := [], returned := [196608, 131072, 65536] }

/-- An `allocate` served by the primary list, an `allocate` served by the
secondary list, and the first page given back. -/
def demoSpillOps : List Op :=
  [Op.allocate false, Op.allocate true, Op.deallocate 65536 false]

/-- The state reached by `demoSpillOps` from `demoSpill`: the page 131072, popped
from the secondary list, is outstanding; one page is cached in each list. -/
def demoSpillLive : Session :=
  { pa := { free_pages := { primary := [65536], secondary := [196608] },
            allocated_count := 1, reserved_count := 3,
            trace := demoSpillTrace ++ [Event.mutexEnter, Event.mutexExit] },
    outstanding := [131072], returned := [131072, 65536, 196608, 131072, 65536] }

/-- The calls of `demoSpillOps`, then the second page given back. -/
def demoSpillOpsDone : List Op :=
  [Op.allocate false, Op.allocate true, Op.deallocate 65536 false,
   Op.deallocate 131072 true]

/-- The state reached by `demoSpillOpsDone` from `demoSpill`: nothing is
outstanding, two pages are cached in the primary list and one in the secondary
list. -/
def demoSpillDone : Session :=
  { pa := { free_pages := { primary := [131072, 65536], secondary := [196608] },
            allocated_count := 0, reserved_count := 3,
            trace := demoSpillTrace ++ [Event.mutexEnter, Event.mutexExit,
                                        Event.mutexEnter, Event.mutexExit] },
    outstanding := [], returned := [131072, 65536, 196608, 131072, 65536] }

/-- An allocator whose primary free list is empty while its secondary free list
holds two pages, one page being handed out. -/
def demoSpillSecond : PageAllocator :=
  { free_pages := { primary := [], secondary := [131072, 196608] },
    allocated_count := 1, reserved_count := 3, trace := demoSpillTrace }

/-- An environment whose `PAGE_SIZE`, 16384, is a multiple of the OS alignment,
4096. -/
def bigPageEnv : Env :=
  { PAGE_SIZE := 16384, getMemPageAlignment := 4096,
    memReserve := fun k _ => 16384 * (k + 1) }

/-! ## Traces -/

theorem reservedAddrs_append (a b : List Event) :
    reservedAddrs (a ++ b) = reservedAddrs a ++ reservedAddrs b := by
  induction a with
  | nil => rfl
  | cons e es ih => cases e <;> simp [reservedAddrs, ih]

theorem releases_append (a b : List Event) :
    releases (a ++ b) = releases a ++ releases b := by
  induction a with
  | nil => rfl
  | cons e es ih => cases e <;> simp [releases, ih]

theorem commits_append (a b : List Event) :
    commits (a ++ b) = commits a ++ commits b := by
  induction a with
  | nil => rfl
  | cons e es ih => cases e <;> simp [commits, ih]

theorem mutexEnters_append (a b : List Event) :
    mutexEnters (a ++ b) = mutexEnters a + mutexEnters b := by
  induction a with
  | nil => simp [mutexEnters]
  | cons e es ih => cases e <;> simp [mutexEnters, ih]; omega

/-! ## The three branches of `allocate` -/

namespace PageAllocator

theorem allocate_primary (env : Env) (s : PageAllocator) (lock : Bool) (p : Addr)
    (rest : List Addr) (h : s.free_pages.primary = p :: rest) :
    allocate env s lock = some (p,
      { s with allocated_count := s.allocated_count + 1,
               free_pages := { s.free_pages with primary := rest } }) := by
  simp [allocate, FreeList.pop, h]

theorem allocate_secondary (env : Env) (s : PageAllocator) (lock : Bool) (p : Addr)
    (rest : List Addr) (h1 : s.free_pages.primary = [])
    (h2 : s.free_pages.secondary = p :: rest) :
    allocate env s lock = some (p,
      { s with allocated_count := s.allocated_count + 1,
               free_pages := { s.free_pages with secondary := rest },
               trace := s.trace ++ lockEvents lock Event.mutexEnter
                          ++ lockEvents lock Event.mutexExit }) := by
  cases lock <;> simp [allocate, FreeList.pop, FreeList.popSecondary, h1, h2, log, lockEvents]

theorem allocate_os (env : Env) (s : PageAllocator) (lock : Bool)
    (h1 : s.free_pages.primary = []) (h2 : s.free_pages.secondary = []) :
    allocate env s lock =
      if allocAssert env (env.memReserve (reservedAddrs s.trace).length env.PAGE_SIZE) then
        some (env.memReserve (reservedAddrs s.trace).length env.PAGE_SIZE,
          { s with allocated_count := s.allocated_count + 1,
                   reserved_count := s.reserved_count + 1,
                   trace := s.trace ++ lockEvents lock Event.mutexEnter
                     ++ lockEvents lock Event.mutexExit
                     ++ [Event.memReserve env.PAGE_SIZE
                          (env.memReserve (reservedAddrs s.trace).length env.PAGE_SIZE),
                         Event.memCommit
                          (env.memReserve (reservedAddrs s.trace).length env.PAGE_SIZE)
                          env.PAGE_SIZE] })
      else none := by
  cases lock <;>
    simp [allocate, FreeList.pop, FreeList.popSecondary, h1, h2, log, lockEvents,
      reservedAddrs_append, reservedAddrs]

theorem deallocate_eq (s : PageAllocator) (mem : Addr) (lock : Bool) :
    deallocate s mem lock =
      { free_pages := { primary := mem :: s.free_pages.primary,
                        secondary := s.free_pages.secondary },
        allocated_count := s.allocated_count - 1,
        reserved_count := s.reserved_count,
        trace := s.trace ++ (if lock then [Event.mutexEnter, Event.mutexExit] else []) } := by
  rfl

theorem releases_releaseEvents (env : Env) (l : List Addr) :
    releases (releaseEvents env l) = l.map (fun p => (p, env.PAGE_SIZE)) := by
  induction l with
  | nil => rfl
  | cons a l ih => simpa [releaseEvents, releases] using ih

theorem reservedAddrs_releaseEvents (env : Env) (l : List Addr) :
    reservedAddrs (releaseEvents env l) = [] := by
  induction l with
  | nil => rfl
  | cons a l ih => simpa [releaseEvents, reservedAddrs] using ih

theorem drainPrimary_eq (env : Env) (n : Nat) (s : PageAllocator)
    (h : s.free_pages.primary.length ≤ n) :
    drainPrimary env n s =
      { s with free_pages := { primary := [], secondary := s.free_pages.secondary },
               trace := s.trace ++ releaseEvents env s.free_pages.primary } := by
  induction n generalizing s with
  | zero =>
    obtain ⟨⟨pr, sc⟩, ac, rc, tr⟩ := s
    have : pr = [] := by simpa using h
    subst this
    simp [drainPrimary, releaseEvents]
  | succ n ih =>
    obtain ⟨⟨pr, sc⟩, ac, rc, tr⟩ := s
    cases pr with
    | nil => simp [drainPrimary, FreeList.pop, releaseEvents]
    | cons p rest =>
      have hlen : rest.length ≤ n := by simpa using h
      simp only [drainPrimary, FreeList.pop]
      rw [ih _ (by simpa [log] using hlen)]
      simp [log, releaseEvents]

theorem drainSecondary_eq (env : Env) (n : Nat) (s : PageAllocator)
    (h : s.free_pages.secondary.length ≤ n) :
    drainSecondary env n s =
      { s with free_pages := { primary := s.free_pages.primary, secondary := [] },
               trace := s.trace ++ releaseEvents env s.free_pages.secondary } := by
  induction n generalizing s with
  | zero =>
    obtain ⟨⟨pr, sc⟩, ac, rc, tr⟩ := s
    have : sc = [] := by simpa using h
    subst this
    simp [drainSecondary, releaseEvents]
  | succ n ih =>
    obtain ⟨⟨pr, sc⟩, ac, rc, tr⟩ := s
    cases sc with
    | nil => simp [drainSecondary, FreeList.popSecondary, releaseEvents]
    | cons p rest =>
      have hlen : rest.length ≤ n := by simpa using h
      simp only [drainSecondary, FreeList.popSecondary]
      rw [ih _ (by simpa [log] using hlen)]
      simp [log, releaseEvents]

theorem dtor_eq (env : Env) (s : PageAllocator) (h : s.allocated_count = 0) :
    dtor env s = some
      { free_pages := { primary := [], secondary := [] },
        allocated_count := s.allocated_count,
        reserved_count := s.reserved_count,
        trace := s.trace ++ releaseEvents env s.free_pages.primary
                   ++ releaseEvents env s.free_pages.secondary } := by
  have hA : dtorAssert s = true := by simp [dtorAssert, h]
  simp only [dtor, hA, if_true]
  rw [drainPrimary_eq env _ s (le_refl _)]
  rw [drainSecondary_eq env _ _ (le_refl _)]

theorem dtor_none (env : Env) (s : PageAllocator) (h : s.allocated_count ≠ 0) :
    dtor env s = none := by
  simp [dtor, dtorAssert, h]

end PageAllocator

/-! ## Invariants of the allocator state -/

namespace PageAllocator

theorem allocate_cases (env : Env) (s : PageAllocator) (lock : Bool) (p : Addr)
    (s1 : PageAllocator) (h : allocate env s lock = some (p, s1)) :
    (∃ rest, s.free_pages.primary = p :: rest ∧
      s1 = { s with allocated_count := s.allocated_count + 1,
                    free_pages := { s.free_pages with primary := rest } }) ∨
    (∃ rest, s.free_pages.primary = [] ∧ s.free_pages.secondary = p :: rest ∧
      s1 = { s with allocated_count := s.allocated_count + 1,
                    free_pages := { s.free_pages with secondary := rest },
                    trace := s.trace ++ lockEvents lock Event.mutexEnter
                               ++ lockEvents lock Event.mutexExit }) ∨
    (s.free_pages.primary = [] ∧ s.free_pages.secondary = [] ∧
      p = env.memReserve (reservedAddrs s.trace).length env.PAGE_SIZE ∧
      p % env.PAGE_SIZE = 0 ∧
      s1 = { s with allocated_count := s.allocated_count + 1,
                    reserved_count := s.reserved_count + 1,
                    trace := s.trace ++ lockEvents lock Event.mutexEnter
                      ++ lockEvents lock Event.mutexExit
                      ++ [Event.memReserve env.PAGE_SIZE p,
                          Event.memCommit p env.PAGE_SIZE] }) := by
  cases hp : s.free_pages.primary with
  | cons q rest =>
    rw [allocate_primary env s lock q rest hp] at h
    simp only [Option.some.injEq, Prod.mk.injEq] at h
    obtain ⟨rfl, rfl⟩ := h
    exact Or.inl ⟨rest, rfl, rfl⟩
  | nil =>
    cases hs : s.free_pages.secondary with
    | cons q rest =>
      rw [allocate_secondary env s lock q rest hp hs] at h
      simp only [Option.some.injEq, Prod.mk.injEq] at h
      obtain ⟨rfl, rfl⟩ := h
      exact Or.inr (Or.inl ⟨rest, rfl, rfl, rfl⟩)
    | nil =>
      rw [allocate_os env s lock hp hs] at h
      by_cases ha : allocAssert env
          (env.memReserve (reservedAddrs s.trace).length env.PAGE_SIZE) = true
      · rw [if_pos ha] at h
        simp only [Option.some.injEq, Prod.mk.injEq] at h
        obtain ⟨rfl, rfl⟩ := h
        refine Or.inr (Or.inr ⟨rfl, rfl, rfl, ?_, rfl⟩)
        simpa [allocAssert] using ha
      · rw [if_neg ha] at h
        exact absurd h (by simp)

theorem reservedAddrs_lockEvents (lock : Bool) (e : Event)
    (he : ∀ n a, e ≠ Event.memReserve n a) : reservedAddrs (lockEvents lock e) = [] := by
  cases lock
  · rfl
  · cases e <;> simp [lockEvents, reservedAddrs] at he ⊢

theorem releases_lockEvents (lock : Bool) (e : Event)
    (he : ∀ a n, e ≠ Event.memRelease a n) : releases (lockEvents lock e) = [] := by
  cases lock
  · rfl
  · cases e <;> simp [lockEvents, releases] at he ⊢

theorem conserved_fresh : Conserved fresh := by
  simp [Conserved, fresh]

theorem conserved_allocate (env : Env) (s : PageAllocator) (lock : Bool) (p : Addr)
    (s1 : PageAllocator) (hI : Conserved s) (h : allocate env s lock = some (p, s1)) :
    Conserved s1 := by
  unfold Conserved at hI ⊢
  rcases allocate_cases env s lock p s1 h with
    ⟨rest, hp, rfl⟩ | ⟨rest, hp, hs, rfl⟩ | ⟨hp, hs, -, -, rfl⟩
  · simp only [hp, List.length_cons] at hI ⊢
    push_cast at hI ⊢
    omega
  · simp only [hp, hs, List.length_cons, List.length_nil] at hI ⊢
    push_cast at hI ⊢
    omega
  · simp only [hp, hs, List.length_nil] at hI ⊢
    push_cast at hI ⊢
    omega

theorem conserved_deallocate (s : PageAllocator) (mem : Addr) (lock : Bool)
    (hI : Conserved s) : Conserved (deallocate s mem lock) := by
  unfold Conserved at hI ⊢
  rw [deallocate_eq]
  simp only [List.length_cons]
  push_cast
  omega

theorem reservedAddrs_allocate (env : Env) (s : PageAllocator) (lock : Bool) (p : Addr)
    (s1 : PageAllocator) (h : allocate env s lock = some (p, s1)) :
    (s.free_pages.primary ++ s.free_pages.secondary ≠ [] ∧
        reservedAddrs s1.trace = reservedAddrs s.trace) ∨
    (s.free_pages.primary ++ s.free_pages.secondary = [] ∧
        p = env.memReserve (reservedAddrs s.trace).length env.PAGE_SIZE ∧
        reservedAddrs s1.trace = reservedAddrs s.trace ++ [p]) := by
  rcases allocate_cases env s lock p s1 h with
    ⟨rest, hp, rfl⟩ | ⟨rest, hp, hs, rfl⟩ | ⟨hp, hs, hmem, -, rfl⟩
  · exact Or.inl ⟨by simp [hp], rfl⟩
  · refine Or.inl ⟨by simp [hp, hs], ?_⟩
    simp [reservedAddrs_append, reservedAddrs_lockEvents]
  · refine Or.inr ⟨by simp [hp, hs], hmem, ?_⟩
    simp [reservedAddrs_append, reservedAddrs_lockEvents, reservedAddrs]

theorem reservedAddrs_deallocate (s : PageAllocator) (mem : Addr) (lock : Bool) :
    reservedAddrs (deallocate s mem lock).trace = reservedAddrs s.trace := by
  rw [deallocate_eq]
  cases lock <;> simp [reservedAddrs_append, reservedAddrs]

theorem releases_allocate (env : Env) (s : PageAllocator) (lock : Bool) (p : Addr)
    (s1 : PageAllocator) (h : allocate env s lock = some (p, s1)) :
    releases s1.trace = releases s.trace := by
  rcases allocate_cases env s lock p s1 h with
    ⟨rest, hp, rfl⟩ | ⟨rest, hp, hs, rfl⟩ | ⟨hp, hs, -, -, rfl⟩
  · rfl
  · simp [releases_append, releases_lockEvents]
  · simp [releases_append, releases_lockEvents, releases]

theorem releases_deallocate (s : PageAllocator) (mem : Addr) (lock : Bool) :
    releases (deallocate s mem lock).trace = releases s.trace := by
  rw [deallocate_eq]
  cases lock <;> simp [releases_append, releases]

theorem osFaithful_fresh (env : Env) : OsFaithful env fresh := by
  simp [OsFaithful, fresh, reservedAddrs]

theorem osFaithful_allocate (env : Env) (s : PageAllocator) (lock : Bool) (p : Addr)
    (s1 : PageAllocator) (hI : OsFaithful env s) (h : allocate env s lock = some (p, s1)) :
    OsFaithful env s1 := by
  unfold OsFaithful at hI ⊢
  rcases reservedAddrs_allocate env s lock p s1 h with ⟨-, he⟩ | ⟨-, hp, he⟩
  · rw [he]; exact hI
  · rw [he, List.length_append, List.length_singleton, List.range_succ, List.map_append,
      ← hI, List.map_singleton, ← hp]

theorem osFaithful_deallocate (env : Env) (s : PageAllocator) (mem : Addr) (lock : Bool)
    (hI : OsFaithful env s) : OsFaithful env (deallocate s mem lock) := by
  unfold OsFaithful at hI ⊢
  rw [reservedAddrs_deallocate]
  exact hI

theorem nodup_reservedAddrs (env : Env) (s : PageAllocator) (hd : ReserveDistinct env)
    (hI : OsFaithful env s) : (reservedAddrs s.trace).Nodup := by
  rw [hI]
  exact (List.nodup_range _).map (fun i j hij => hd i j hij)

end PageAllocator

namespace Session

theorem step_allocate (env : Env) (st st1 : Session) (lock : Bool)
    (h : step env st (Op.allocate lock) = some st1) :
    ∃ p pa, st.pa.allocate env lock = some (p, pa) ∧
      st1 = { pa := pa, outstanding := p :: st.outstanding, returned := p :: st.returned } := by
  unfold step at h
  cases ha : st.pa.allocate env lock with
  | none => simp [ha] at h
  | some r =>
    obtain ⟨p, pa⟩ := r
    simp only [ha, Option.some.injEq] at h
    exact ⟨p, pa, rfl, h.symm⟩

theorem step_deallocate (env : Env) (st : Session) (mem : Addr) (lock : Bool) :
    step env st (Op.deallocate mem lock) =
      some { pa := st.pa.deallocate mem lock, outstanding := st.outstanding.erase mem,
             returned := st.returned } := by
  rfl

/-- An invariant kept by every call that satisfies the contract holds after
every run that respects the contract. -/
theorem run_invariant (env : Env) (ok : Session → Op → Bool) (I : Session → Prop)
    (hstep : ∀ st op st1, I st → ok st op = true → step env st op = some st1 → I st1)
    (ops : List Op) (st st1 : Session) (h0 : I st)
    (hok : respects ok env st ops = true) (hrun : run env st ops = some st1) : I st1 := by
  induction ops generalizing st with
  | nil =>
    simp only [run, Option.some.injEq] at hrun
    exact hrun ▸ h0
  | cons op ops ih =>
    simp only [run, respects, Bool.and_eq_true] at hrun hok
    cases hs : step env st op with
    | none => simp [hs] at hrun
    | some st2 =>
      simp only [hs] at hrun hok
      exact ih st2 (hstep st op st2 h0 hok.1 hs) hok.2 hrun

theorem respects_anyOk (env : Env) (ops : List Op) (st : Session) :
    respects anyOk env st ops = true := by
  induction ops generalizing st with
  | nil => rfl
  | cons op ops ih =>
    simp only [respects, anyOk, Bool.true_and]
    cases step env st op with
    | none => rfl
    | some st2 => exact ih st2

/-- An invariant of the allocator state alone, kept by `allocate` and by
`deallocate`, holds after every run. -/
theorem run_pa_invariant (env : Env) (I : PageAllocator → Prop)
    (halloc : ∀ s lock p s1, I s → s.allocate env lock = some (p, s1) → I s1)
    (hdealloc : ∀ s mem lock, I s → I (s.deallocate mem lock))
    (ops : List Op) (st st1 : Session) (h0 : I st.pa)
    (hrun : run env st ops = some st1) : I st1.pa := by
  refine run_invariant env anyOk (fun st => I st.pa) ?_ ops st st1 h0
    (respects_anyOk env ops st) hrun
  intro st op st2 hI _ hs
  cases op with
  | allocate lock =>
    obtain ⟨p, pa, ha, rfl⟩ := step_allocate env st st2 lock hs
    exact halloc st.pa lock p pa hI ha
  | deallocate mem lock =>
    rw [step_deallocate] at hs
    simp only [Option.some.injEq] at hs
    subst hs
    exact hdealloc st.pa mem lock hI

end Session

/-! ## Invariants of runs that respect the caller contract -/

namespace Session

theorem owned_fresh : Owned fresh := by
  simp [Owned, fresh, PageAllocator.fresh, reservedAddrs]

theorem owned_step (env : Env) (st : Session) (op : Op) (st1 : Session)
    (hI : Owned st) (hok : callerOk st op = true) (hs : step env st op = some st1) :
    Owned st1 := by
  unfold Owned at hI ⊢
  cases op with
  | allocate lock =>
    obtain ⟨p, pa, ha, rfl⟩ := step_allocate env st st1 lock hs
    rcases PageAllocator.allocate_cases env st.pa lock p pa ha with
      ⟨rest, hp, rfl⟩ | ⟨rest, hp, hsec, rfl⟩ | ⟨hp, hsec, -, -, rfl⟩
    · simp only [hp] at hI ⊢
      refine List.Perm.trans ?_ hI
      have hm := @List.perm_middle _ p (rest ++ st.pa.free_pages.secondary) st.outstanding
      simpa [List.append_assoc] using hm
    · simp only [hp, hsec] at hI ⊢
      simp only [reservedAddrs_append, PageAllocator.reservedAddrs_lockEvents, ne_eq,
        not_false_eq_true, implies_true, reduceCtorEq, List.append_nil, List.nil_append]
      refine List.Perm.trans ?_ hI
      simp
    · simp only [hp, hsec, List.nil_append] at hI ⊢
      simp only [reservedAddrs_append, PageAllocator.reservedAddrs_lockEvents, ne_eq,
        not_false_eq_true, implies_true, reduceCtorEq, List.append_nil, reservedAddrs]
      exact (List.Perm.cons p hI).trans (List.perm_append_singleton p _).symm
  | deallocate mem lock =>
    rw [step_deallocate] at hs
    simp only [Option.some.injEq] at hs
    subst hs
    have hmem : mem ∈ st.outstanding := by simpa [callerOk] using hok
    simp only [PageAllocator.reservedAddrs_deallocate]
    rw [PageAllocator.deallocate_eq]
    refine List.Perm.trans ?_ hI
    have h1 : (mem :: st.outstanding.erase mem).Perm st.outstanding :=
      (List.perm_cons_erase hmem).symm
    have h2 : (st.pa.free_pages.primary ++ st.pa.free_pages.secondary
        ++ mem :: st.outstanding.erase mem).Perm
        (st.pa.free_pages.primary ++ st.pa.free_pages.secondary ++ st.outstanding) :=
      List.Perm.append_left _ h1
    refine List.Perm.trans ?_ h2
    have hm := @List.perm_middle _ mem
      (st.pa.free_pages.primary ++ st.pa.free_pages.secondary) (st.outstanding.erase mem)
    simpa [List.append_assoc] using hm.symm

theorem counted_fresh : Counted fresh := by
  simp [Counted, fresh, PageAllocator.fresh]

theorem counted_step (env : Env) (st : Session) (op : Op) (st1 : Session)
    (hI : Counted st) (hok : callerOk st op = true) (hs : step env st op = some st1) :
    Counted st1 := by
  unfold Counted at hI ⊢
  cases op with
  | allocate lock =>
    obtain ⟨p, pa, ha, rfl⟩ := step_allocate env st st1 lock hs
    have hc : pa.allocated_count = st.pa.allocated_count + 1 := by
      rcases PageAllocator.allocate_cases env st.pa lock p pa ha with
        ⟨rest, hp, rfl⟩ | ⟨rest, hp, hsec, rfl⟩ | ⟨hp, hsec, -, -, rfl⟩ <;> rfl
    simp only [hc, hI, List.length_cons]
    push_cast
    rfl
  | deallocate mem lock =>
    rw [step_deallocate] at hs
    simp only [Option.some.injEq] at hs
    subst hs
    have hmem : mem ∈ st.outstanding := by simpa [callerOk] using hok
    have hpos : 0 < st.outstanding.length := List.length_pos_of_mem hmem
    rw [PageAllocator.deallocate_eq]
    simp only [hI, List.length_erase_of_mem hmem]
    omega

theorem aligned_fresh (env : Env) : Aligned env fresh := by
  simp [Aligned, fresh, PageAllocator.fresh]

theorem aligned_step (env : Env) (st : Session) (op : Op) (st1 : Session)
    (hI : Aligned env st) (hok : returnedOk st op = true) (hs : step env st op = some st1) :
    Aligned env st1 := by
  unfold Aligned at hI ⊢
  cases op with
  | allocate lock =>
    obtain ⟨p, pa, ha, rfl⟩ := step_allocate env st st1 lock hs
    rcases PageAllocator.allocate_cases env st.pa lock p pa ha with
      ⟨rest, hp, rfl⟩ | ⟨rest, hp, hsec, rfl⟩ | ⟨hp, hsec, -, hal, rfl⟩
    · intro a hmem
      apply hI
      simp only [hp, List.mem_append, List.mem_cons] at hmem ⊢
      tauto
    · intro a hmem
      apply hI
      simp only [hp, hsec, List.mem_append, List.mem_cons] at hmem ⊢
      tauto
    · intro a hmem
      simp only [hp, hsec, List.mem_append, List.mem_cons] at hmem
      rcases hmem with (h | h) | h | h
      · simp at h
      · simp at h
      · exact h ▸ hal
      · exact hI a (by simp [h])
  | deallocate mem lock =>
    rw [step_deallocate] at hs
    simp only [Option.some.injEq] at hs
    subst hs
    have hmem : mem ∈ st.returned := by simpa [returnedOk] using hok
    rw [PageAllocator.deallocate_eq]
    intro a ha
    simp only [List.mem_append, List.mem_cons] at ha
    rcases ha with ((h | h) | h) | h
    · exact hI a (by simp [h, hmem])
    · exact hI a (by simp [h])
    · exact hI a (by simp [h])
    · exact hI a (by simp [h])

end Session

namespace PageAllocator

theorem allocated_count_allocate (env : Env) (s : PageAllocator) (lock : Bool) (p : Addr)
    (s1 : PageAllocator) (h : allocate env s lock = some (p, s1)) :
    s1.allocated_count = s.allocated_count + 1 := by
  rcases allocate_cases env s lock p s1 h with
    ⟨rest, hp, rfl⟩ | ⟨rest, hp, hsec, rfl⟩ | ⟨hp, hsec, -, -, rfl⟩ <;> rfl

theorem reserved_count_allocate (env : Env) (s : PageAllocator) (lock : Bool) (p : Addr)
    (s1 : PageAllocator) (h : allocate env s lock = some (p, s1)) :
    s.reserved_count ≤ s1.reserved_count := by
  rcases allocate_cases env s lock p s1 h with
    ⟨rest, hp, rfl⟩ | ⟨rest, hp, hsec, rfl⟩ | ⟨hp, hsec, -, -, rfl⟩ <;> simp

end PageAllocator

namespace Session

theorem run_allocated_count (env : Env) (ops : List Op) (st st1 : Session)
    (hrun : run env st ops = some st1) :
    st1.pa.allocated_count =
      st.pa.allocated_count + (countAllocs ops : Int) - (countDeallocs ops : Int) := by
  induction ops generalizing st with
  | nil =>
    simp only [run, Option.some.injEq] at hrun
    subst hrun
    simp [countAllocs, countDeallocs]
  | cons op ops ih =>
    simp only [run] at hrun
    cases hs : step env st op with
    | none => simp [hs] at hrun
    | some st2 =>
      simp only [hs] at hrun
      have h2 := ih st2 hrun
      cases op with
      | allocate lock =>
        obtain ⟨p, pa, ha, rfl⟩ := step_allocate env st st2 lock hs
        have hc := PageAllocator.allocated_count_allocate env st.pa lock p pa ha
        simp only [countAllocs, countDeallocs] at h2 ⊢
        rw [h2, hc]
        push_cast
        ring
      | deallocate mem lock =>
        rw [step_deallocate] at hs
        simp only [Option.some.injEq] at hs
        subst hs
        simp only [countAllocs, countDeallocs, PageAllocator.deallocate_eq] at h2 ⊢
        rw [h2]
        push_cast
        ring

/-- A run on an OS whose reserved addresses are page-aligned never fails an
assertion: it always reaches a final state. -/
theorem run_isSome (env : Env) (hal : ReserveAligned env) (ops : List Op) (st : Session) :
    ∃ st1, run env st ops = some st1 := by
  induction ops generalizing st with
  | nil => exact ⟨st, rfl⟩
  | cons op ops ih =>
    cases op with
    | allocate lock =>
      have hstep : ∃ st2, step env st (Op.allocate lock) = some st2 := by
        cases hp : st.pa.free_pages.primary with
        | cons q rest =>
          simp [step, PageAllocator.allocate_primary env st.pa lock q rest hp]
        | nil =>
          cases hsec : st.pa.free_pages.secondary with
          | cons q rest =>
            simp [step, PageAllocator.allocate_secondary env st.pa lock q rest hp hsec]
          | nil =>
            have ha : PageAllocator.allocAssert env
                (env.memReserve (reservedAddrs st.pa.trace).length env.PAGE_SIZE) = true := by
              simpa [PageAllocator.allocAssert] using hal _
            simp [step, PageAllocator.allocate_os env st.pa lock hp hsec, ha]
      obtain ⟨st2, h2⟩ := hstep
      obtain ⟨st1, h1⟩ := ih st2
      exact ⟨st1, by simp only [run, h2, h1]⟩
    | deallocate mem lock =>
      obtain ⟨st1, h1⟩ := ih (Session.mk (st.pa.deallocate mem lock)
        (st.outstanding.erase mem) st.returned)
      exact ⟨st1, by simp only [run, step_deallocate, h1]⟩

end Session

theorem osCalls_append (a b : List Event) : osCalls (a ++ b) = osCalls a ++ osCalls b := by
  induction a with
  | nil => rfl
  | cons e es ih => cases e <;> simp [osCalls, ih]

namespace PageAllocator

theorem osCalls_lockEvents_enter (lock : Bool) :
    osCalls (lockEvents lock Event.mutexEnter) = [] := by
  cases lock <;> rfl

theorem osCalls_lockEvents_exit (lock : Bool) :
    osCalls (lockEvents lock Event.mutexExit) = [] := by
  cases lock <;> rfl

theorem commits_deallocate (s : PageAllocator) (mem : Addr) (lock : Bool) :
    commits (deallocate s mem lock).trace = commits s.trace := by
  rw [deallocate_eq]
  cases lock <;> simp [commits_append, commits]

theorem noRelease_fresh : NoRelease fresh := by
  simp [NoRelease, fresh, releases]

theorem noRelease_allocate (env : Env) (s : PageAllocator) (lock : Bool) (p : Addr)
    (s1 : PageAllocator) (hI : NoRelease s) (h : allocate env s lock = some (p, s1)) :
    NoRelease s1 := by
  unfold NoRelease at hI ⊢
  rw [releases_allocate env s lock p s1 h]
  exact hI

theorem noRelease_deallocate (s : PageAllocator) (mem : Addr) (lock : Bool)
    (hI : NoRelease s) : NoRelease (deallocate s mem lock) := by
  unfold NoRelease at hI ⊢
  rw [releases_deallocate]
  exact hI

/-- The reference holds of every result of `allocate`. -/
theorem allocateRef_of_allocate (env : Env) (s : PageAllocator) (lock : Bool) (p : Addr)
    (s1 : PageAllocator) (h : allocate env s lock = some (p, s1)) :
    AllocateRef env s p s1 := by
  rcases allocate_cases env s lock p s1 h with
    ⟨rest, hp, rfl⟩ | ⟨rest, hp, hsec, rfl⟩ | ⟨hp, hsec, hmem, -, rfl⟩
  · simp [AllocateRef, hp]
  · simp [AllocateRef, hp, hsec, osCalls_append, osCalls_lockEvents_enter,
      osCalls_lockEvents_exit]
  · simp [AllocateRef, hp, hsec, osCalls_append, osCalls_lockEvents_enter,
      osCalls_lockEvents_exit, osCalls, hmem]

end PageAllocator

namespace Session

theorem run_reserved_count_mono (env : Env) (ops : List Op) (st st1 : Session)
    (hrun : run env st ops = some st1) :
    st.pa.reserved_count ≤ st1.pa.reserved_count := by
  induction ops generalizing st with
  | nil =>
    simp only [run, Option.some.injEq] at hrun
    subst hrun
    exact le_refl _
  | cons op ops ih =>
    simp only [run] at hrun
    cases hs : step env st op with
    | none => simp [hs] at hrun
    | some st2 =>
      simp only [hs] at hrun
      refine le_trans ?_ (ih st2 hrun)
      cases op with
      | allocate lock =>
        obtain ⟨p, pa, ha, rfl⟩ := step_allocate env st st2 lock hs
        exact PageAllocator.reserved_count_allocate env st.pa lock p pa ha
      | deallocate mem lock =>
        rw [step_deallocate] at hs
        simp only [Option.some.injEq] at hs
        subst hs
        exact le_refl _

end Session

/-! ## Example runs -/

theorem demoEnv_distinct : ReserveDistinct demoEnv := by
  intro i j h
  have h1 : 65536 * (i + 1) = 65536 * (j + 1) := h
  omega

theorem demoOps_run : Session.run demoEnv Session.fresh demoOps = some demoLive := by
  decide

theorem demoOps_respects :
    Session.respects Session.callerOk demoEnv Session.fresh demoOps = true := by
  decide

theorem demoOpsDone_run : Session.run demoEnv Session.fresh demoOpsDone = some demoDone := by
  decide

theorem demoOpsDone_respects :
    Session.respects Session.callerOk demoEnv Session.fresh demoOpsDone = true := by
  decide

namespace PageAllocator

/-- When the constructor's assertion holds, an address aligned to the OS page
alignment passes the alignment assertion of `allocate`. -/
theorem allocAssert_of_aligned (env : Env) (hc : ctorAssert env = true) (mem : Addr)
    (hm : mem % env.getMemPageAlignment = 0) : allocAssert env mem = true := by
  have hdiv : env.PAGE_SIZE ∣ env.getMemPageAlignment := by
    apply Nat.dvd_of_mod_eq_zero
    simpa [ctorAssert] using hc
  have h1 : env.PAGE_SIZE ∣ mem := dvd_trans hdiv (Nat.dvd_of_mod_eq_zero hm)
  simp [allocAssert, Nat.mod_eq_zero_of_dvd h1]

/-- With both free lists empty and a reserved address that is not a multiple of
`PAGE_SIZE`, the alignment assertion of `allocate` fails. -/
theorem allocate_misaligned (env : Env) (s : PageAllocator) (lock : Bool)
    (hp : s.free_pages.primary = []) (hsec : s.free_pages.secondary = [])
    (hal : env.memReserve (reservedAddrs s.trace).length env.PAGE_SIZE % env.PAGE_SIZE ≠ 0) :
    s.allocate env lock = none := by
  have ha : ¬ allocAssert env
      (env.memReserve (reservedAddrs s.trace).length env.PAGE_SIZE) = true := by
    simpa [allocAssert] using hal
  rw [allocate_os env s lock hp hsec, if_neg ha]

/-- Whenever `allocate` does not fail its alignment assertion, it returns. -/
theorem allocate_isSome (env : Env) (s : PageAllocator) (lock : Bool)
    (ha : allocAssert env
      (env.memReserve (reservedAddrs s.trace).length env.PAGE_SIZE) = true) :
    ∃ p s1, s.allocate env lock = some (p, s1) := by
  cases hp : s.free_pages.primary with
  | cons q rest => exact ⟨_, _, allocate_primary env s lock q rest hp⟩
  | nil =>
    cases hsec : s.free_pages.secondary with
    | cons q rest => exact ⟨_, _, allocate_secondary env s lock q rest hp hsec⟩
    | nil => exact ⟨_, _, by rw [allocate_os env s lock hp hsec, if_pos ha]⟩

end PageAllocator

theorem demoSpill_owned : Owned demoSpill := by
  unfold Owned
  decide

theorem demoSpill_counted : Counted demoSpill := by
  unfold Counted
  decide

theorem demoSpill_osFaithful : OsFaithful demoEnv demoSpill.pa := by
  unfold OsFaithful
  decide

theorem demoSpill_noRelease : NoRelease demoSpill.pa := by
  unfold NoRelease
  decide

theorem demoSpill_conserved : Conserved demoSpill.pa := by
  unfold Conserved
  decide

theorem demoSpill_aligned : Aligned demoEnv demoSpill := by
  unfold Aligned
  decide

theorem demoSpillOps_run : Session.run demoEnv demoSpill demoSpillOps = some demoSpillLive := by
  decide

theorem demoSpillOps_respects :
    Session.respects Session.callerOk demoEnv demoSpill demoSpillOps = true := by
  decide

theorem demoSpillOpsDone_run :
    Session.run demoEnv demoSpill demoSpillOpsDone = some demoSpillDone := by
  decide

theorem demoSpillOpsDone_respects :
    Session.respects Session.callerOk demoEnv demoSpill demoSpillOpsDone = true := by
  decide

/-! ## The claims -/

/-- C1 (exclusive ownership over sequential runs). Start from any allocator
state in which the free lists and the outstanding addresses are together exactly
the addresses the OS has handed out (`Owned`, `OsFaithful`); a freshly
constructed allocator is one such state, and so is a state whose secondary free
list is populated. Take any finite sequence of `allocate` / `deallocate` calls in
which each `deallocate` is given an outstanding address, on an OS that never
returns the same address from two `os::memReserve` calls, and let `st` be the
state after it (every point of a run is the end of such a sequence). Then (i)
whatever address the next `allocate` returns, from the primary list, from the
secondary list or from the OS, is not outstanding, and (ii) no address occurs
twice across the primary and secondary free lists taken together, and no
outstanding address occurs in either free list. -/
theorem exclusive_ownership (env : Env) (hd : ReserveDistinct env) (st0 : Session)
    (hown0 : Owned st0) (hos0 : OsFaithful env st0.pa) (ops : List Op) (st : Session)
    (hok : Session.respects Session.callerOk env st0 ops = true)
    (hrun : Session.run env st0 ops = some st) :
    (∀ lock p s1, st.pa.allocate env lock = some (p, s1) → p ∉ st.outstanding) ∧
    (st.pa.free_pages.primary ++ st.pa.free_pages.secondary).Nodup ∧
    (∀ a, a ∈ st.outstanding →
      a ∉ st.pa.free_pages.primary ∧ a ∉ st.pa.free_pages.secondary) := by
  have hown : Owned st :=
    Session.run_invariant env Session.callerOk Owned (Session.owned_step env) ops st0 st
      hown0 hok hrun
  have hos : OsFaithful env st.pa :=
    Session.run_pa_invariant env (OsFaithful env) (PageAllocator.osFaithful_allocate env)
      (PageAllocator.osFaithful_deallocate env) ops st0 st hos0 hrun
  have hnd : (st.pa.free_pages.primary ++ st.pa.free_pages.secondary ++ st.outstanding).Nodup :=
    hown.nodup_iff.mpr (PageAllocator.nodup_reservedAddrs env st.pa hd hos)
  have hdis := (List.nodup_append.mp hnd).2.2
  refine ⟨?_, (List.nodup_append.mp hnd).1, ?_⟩
  · intro lock p s1 ha hout
    rcases PageAllocator.allocate_cases env st.pa lock p s1 ha with
      ⟨rest, hp, -⟩ | ⟨rest, -, hsec, -⟩ | ⟨-, -, hmem, -, -⟩
    · exact hdis (by simp [hp]) hout
    · exact hdis (by simp [hsec]) hout
    · have hin : p ∈ reservedAddrs st.pa.trace :=
        hown.subset (List.mem_append_right _ hout)
      rw [hos, List.mem_map] at hin
      obtain ⟨k, hk, hkp⟩ := hin
      have hlt : k < (reservedAddrs st.pa.trace).length := List.mem_range.mp hk
      have hkeq := hd k _ (hkp.trans hmem)
      omega
  · intro a hout
    constructor
    · intro hin
      exact hdis (List.mem_append_left _ hin) hout
    · intro hin
      exact hdis (List.mem_append_right _ hin) hout

/-- Witness of C1: the run `demoOps` from the freshly constructed allocator, and
the run `demoSpillOps` from `demoSpill`, whose second `allocate` pops the
secondary list and which ends with one page outstanding and one page in each
free list. -/
theorem exclusive_ownership_witness :
    (Session.run demoEnv Session.fresh demoOps = some demoLive ∧
      ((∀ lock p s1, demoLive.pa.allocate demoEnv lock = some (p, s1) →
          p ∉ demoLive.outstanding) ∧
        (demoLive.pa.free_pages.primary ++ demoLive.pa.free_pages.secondary).Nodup ∧
        (∀ a, a ∈ demoLive.outstanding →
          a ∉ demoLive.pa.free_pages.primary ∧ a ∉ demoLive.pa.free_pages.secondary))) ∧
    (Session.run demoEnv demoSpill demoSpillOps = some demoSpillLive ∧
      demoSpillLive.pa.free_pages.secondary = [196608] ∧
      ((∀ lock p s1, demoSpillLive.pa.allocate demoEnv lock = some (p, s1) →
          p ∉ demoSpillLive.outstanding) ∧
        (demoSpillLive.pa.free_pages.primary
          ++ demoSpillLive.pa.free_pages.secondary).Nodup ∧
        (∀ a, a ∈ demoSpillLive.outstanding →
          a ∉ demoSpillLive.pa.free_pages.primary ∧
          a ∉ demoSpillLive.pa.free_pages.secondary))) :=
  ⟨⟨demoOps_run,
      exclusive_ownership demoEnv demoEnv_distinct Session.fresh Session.owned_fresh
        (PageAllocator.osFaithful_fresh demoEnv) demoOps demoLive demoOps_respects
        demoOps_run⟩,
    ⟨demoSpillOps_run, rfl,
      exclusive_ownership demoEnv demoEnv_distinct demoSpill demoSpill_owned
        demoSpill_osFaithful demoSpillOps demoSpillLive demoSpillOps_respects
        demoSpillOps_run⟩⟩

/-- C2 (cache-first policy). In any allocator state `s1` and for any lock flags,
once `deallocate(p, ·)` has been called, in particular for an address `p` that
`allocate` has just returned together with the state `s1`, the `allocate` that
follows immediately returns an address popped from the primary free list (the
page just cached), makes no call at all to the OS or the mutex, so no
`os::memReserve` and no `os::memCommit`, and leaves `reserved_count` at the value
it had in `s1`, that is after the first `allocate`. -/
theorem cache_first (env : Env) (s1 : PageAllocator) (p : Addr) (l2 l3 : Bool) :
    ∃ q s3, (s1.deallocate p l2).allocate env l3 = some (q, s3) ∧
      (s1.deallocate p l2).free_pages.primary = q :: s3.free_pages.primary ∧
      s3.free_pages.secondary = (s1.deallocate p l2).free_pages.secondary ∧
      s3.trace = (s1.deallocate p l2).trace ∧
      reservedAddrs s3.trace = reservedAddrs (s1.deallocate p l2).trace ∧
      commits s3.trace = commits (s1.deallocate p l2).trace ∧
      s3.reserved_count = s1.reserved_count :=
  ⟨p, _, PageAllocator.allocate_primary env (s1.deallocate p l2) l3 p
    s1.free_pages.primary rfl, rfl, rfl, rfl, rfl, rfl, rfl⟩

/-- C3 (live-allocation counting). From any allocator state, after any sequence
of calls, `N` of them `allocate` and `M` of them `deallocate` in any order,
whatever branch each `allocate` takes (primary pop, secondary pop or OS fallback)
and whatever the lock flags, `allocated_count` has grown by `N - M`. Starting
with `allocated_count = 0`, as a freshly constructed allocator does, it is
`N - M` as an integer, and the natural number `N - M` when `N ≥ M`. -/
theorem live_allocation_count (env : Env) (st0 : Session) (ops : List Op) (st : Session)
    (hrun : Session.run env st0 ops = some st) :
    st.pa.allocated_count =
      st0.pa.allocated_count + (countAllocs ops : Int) - (countDeallocs ops : Int) ∧
    (st0.pa.allocated_count = 0 →
      st.pa.allocated_count = (countAllocs ops : Int) - (countDeallocs ops : Int) ∧
      (countDeallocs ops ≤ countAllocs ops →
        st.pa.allocated_count = ((countAllocs ops - countDeallocs ops : Nat) : Int))) := by
  have h := Session.run_allocated_count env ops st0 st hrun
  refine ⟨h, fun h0 => ?_⟩
  rw [h0] at h
  refine ⟨by rw [h]; ring, fun hle => ?_⟩
  rw [h]
  omega

/-- Witness of C3: from the freshly constructed allocator, two `allocate` calls
(both from the OS) and one `deallocate` leave the counter at 1; from `demoSpill`,
an `allocate` from the primary list, one from the secondary list and one
`deallocate` leave it at 1 as well. -/
theorem live_allocation_count_witness :
    (Session.run demoEnv Session.fresh demoOps = some demoLive ∧
      Session.fresh.pa.allocated_count = 0 ∧
      countAllocs demoOps = 2 ∧ countDeallocs demoOps = 1 ∧
      demoLive.pa.allocated_count
        = ((countAllocs demoOps - countDeallocs demoOps : Nat) : Int)) ∧
    (Session.run demoEnv demoSpill demoSpillOps = some demoSpillLive ∧
      demoSpill.pa.allocated_count = 0 ∧
      countAllocs demoSpillOps = 2 ∧ countDeallocs demoSpillOps = 1 ∧
      demoSpillLive.pa.allocated_count
        = (countAllocs demoSpillOps : Int) - (countDeallocs demoSpillOps : Int) ∧
      demoSpillLive.pa.allocated_count
        = ((countAllocs demoSpillOps - countDeallocs demoSpillOps : Nat) : Int)) :=
  ⟨⟨demoOps_run, rfl, by decide, by decide,
      ((live_allocation_count demoEnv Session.fresh demoOps demoLive demoOps_run).2 rfl).2
        (by decide)⟩,
    ⟨demoSpillOps_run, rfl, by decide, by decide,
      ((live_allocation_count demoEnv demoSpill demoSpillOps demoSpillLive
        demoSpillOps_run).2 rfl).1,
      ((live_allocation_count demoEnv demoSpill demoSpillOps demoSpillLive
        demoSpillOps_run).2 rfl).2 (by decide)⟩⟩

/-- C4 (leak detection at teardown). The destructor's assertion passes exactly
when `allocated_count` is 0, in every allocator state. In particular, after a
run on a fresh allocator that respects the caller contract, destroying the
allocator when no page is outstanding passes the assertion, and destroying it
with exactly one page outstanding triggers it. -/
theorem leak_detection (env : Env) (ops : List Op) (st : Session)
    (hok : Session.respects Session.callerOk env Session.fresh ops = true)
    (hrun : Session.run env Session.fresh ops = some st) :
    (∀ s : PageAllocator, PageAllocator.dtorAssert s = true ↔ s.allocated_count = 0) ∧
    (∀ s : PageAllocator, (PageAllocator.dtor env s).isSome = true ↔ s.allocated_count = 0) ∧
    (st.outstanding = [] → (PageAllocator.dtor env st.pa).isSome = true) ∧
    (st.outstanding.length = 1 → PageAllocator.dtor env st.pa = none) := by
  have hcnt : Counted st :=
    Session.run_invariant env Session.callerOk Counted (Session.counted_step env) ops _ st
      Session.counted_fresh hok hrun
  have hiff : ∀ s : PageAllocator,
      (PageAllocator.dtor env s).isSome = true ↔ s.allocated_count = 0 := by
    intro s
    by_cases h : s.allocated_count = 0
    · simp [PageAllocator.dtor_eq env s h, h]
    · simp [PageAllocator.dtor_none env s h, h]
  refine ⟨fun s => by simp [PageAllocator.dtorAssert], hiff, ?_, ?_⟩
  · intro hout
    refine (hiff st.pa).mpr ?_
    rw [hcnt, hout]
    rfl
  · intro hout
    refine PageAllocator.dtor_none env st.pa ?_
    rw [hcnt, hout]
    decide

/-- Witness of C4: after `demoOpsDone` every page has been given back and the
destructor passes its assertion; after `demoOps` one page is outstanding and the
assertion fails. -/
theorem leak_detection_witness :
    (demoDone.outstanding = [] ∧ (PageAllocator.dtor demoEnv demoDone.pa).isSome = true) ∧
    (demoLive.outstanding.length = 1 ∧ PageAllocator.dtor demoEnv demoLive.pa = none) :=
  ⟨⟨rfl, (leak_detection demoEnv demoOpsDone demoDone demoOpsDone_respects
      demoOpsDone_run).2.2.1 rfl⟩,
   ⟨rfl, (leak_detection demoEnv demoOps demoLive demoOps_respects demoOps_run).2.2.2 rfl⟩⟩

/-- C5 (teardown releases exactly what was reserved). Start from any allocator
state in which the free lists and the outstanding addresses are together exactly
the addresses the OS has handed out, `allocated_count` counts the outstanding
ones and nothing has been released; a freshly constructed allocator is one such
state, and so is a state whose secondary free list is populated. After a run
that respects the caller contract, on an OS whose reserve calls return distinct
addresses, and that ends with `allocated_count = 0`, the destructor passes its
assertion and returns with both free lists empty; no release was made before it,
and its `os::memRelease` calls are, up to order, one call `(p, PAGE_SIZE)` for
each address `p` that `os::memReserve` returned, those addresses being pairwise
distinct: each reserved address is released exactly once and no other is. -/
theorem teardown_releases_reserved (env : Env) (hd : ReserveDistinct env) (st0 : Session)
    (hown0 : Owned st0) (hcnt0 : Counted st0) (hos0 : OsFaithful env st0.pa)
    (hnr0 : NoRelease st0.pa) (ops : List Op) (st : Session)
    (hok : Session.respects Session.callerOk env st0 ops = true)
    (hrun : Session.run env st0 ops = some st)
    (hzero : st.pa.allocated_count = 0) :
    ∃ s1, PageAllocator.dtor env st.pa = some s1 ∧
      s1.free_pages.primary = [] ∧ s1.free_pages.secondary = [] ∧
      releases st.pa.trace = [] ∧
      reservedAddrs s1.trace = reservedAddrs st.pa.trace ∧
      (releases s1.trace).Perm
        ((reservedAddrs st.pa.trace).map (fun p => (p, env.PAGE_SIZE))) ∧
      (reservedAddrs st.pa.trace).Nodup := by
  have hown : Owned st :=
    Session.run_invariant env Session.callerOk Owned (Session.owned_step env) ops st0 st
      hown0 hok hrun
  have hcnt : Counted st :=
    Session.run_invariant env Session.callerOk Counted (Session.counted_step env) ops st0 st
      hcnt0 hok hrun
  have hos : OsFaithful env st.pa :=
    Session.run_pa_invariant env (OsFaithful env) (PageAllocator.osFaithful_allocate env)
      (PageAllocator.osFaithful_deallocate env) ops st0 st hos0 hrun
  have hnr : NoRelease st.pa :=
    Session.run_pa_invariant env NoRelease (PageAllocator.noRelease_allocate env)
      PageAllocator.noRelease_deallocate ops st0 st hnr0 hrun
  have hout : st.outstanding = [] := by
    unfold Counted at hcnt
    rw [hzero] at hcnt
    exact List.length_eq_zero.mp (by exact_mod_cast hcnt.symm)
  have hperm : (st.pa.free_pages.primary ++ st.pa.free_pages.secondary).Perm
      (reservedAddrs st.pa.trace) := by
    have h := hown
    unfold Owned at h
    rwa [hout, List.append_nil] at h
  refine ⟨_, PageAllocator.dtor_eq env st.pa hzero, rfl, rfl, hnr, ?_, ?_,
    PageAllocator.nodup_reservedAddrs env st.pa hd hos⟩
  · simp [reservedAddrs_append, PageAllocator.reservedAddrs_releaseEvents]
  · unfold NoRelease at hnr
    simp only [releases_append, hnr, PageAllocator.releases_releaseEvents, List.nil_append,
      ← List.map_append]
    exact hperm.map _

/-- Witness of C5: after `demoOpsDone` from the freshly constructed allocator the
destructor releases the two reserved pages; after `demoSpillOpsDone` from
`demoSpill` it releases the three reserved pages, the page 196608 from the
secondary free list by its second loop. -/
theorem teardown_releases_reserved_witness :
    (demoDone.pa.allocated_count = 0 ∧
      ∃ s1, PageAllocator.dtor demoEnv demoDone.pa = some s1 ∧
        s1.free_pages.primary = [] ∧ s1.free_pages.secondary = [] ∧
        releases demoDone.pa.trace = [] ∧
        reservedAddrs s1.trace = reservedAddrs demoDone.pa.trace ∧
        (releases s1.trace).Perm
          ((reservedAddrs demoDone.pa.trace).map (fun p => (p, demoEnv.PAGE_SIZE))) ∧
        (reservedAddrs demoDone.pa.trace).Nodup) ∧
    (demoSpillDone.pa.allocated_count = 0 ∧
      demoSpillDone.pa.free_pages.secondary = [196608] ∧
      ∃ s1, PageAllocator.dtor demoEnv demoSpillDone.pa = some s1 ∧
        s1.free_pages.primary = [] ∧ s1.free_pages.secondary = [] ∧
        releases demoSpillDone.pa.trace = [] ∧
        reservedAddrs s1.trace = reservedAddrs demoSpillDone.pa.trace ∧
        (releases s1.trace).Perm
          ((reservedAddrs demoSpillDone.pa.trace).map (fun p => (p, demoEnv.PAGE_SIZE))) ∧
        (reservedAddrs demoSpillDone.pa.trace).Nodup) :=
  ⟨⟨rfl, teardown_releases_reserved demoEnv demoEnv_distinct Session.fresh
      Session.owned_fresh Session.counted_fresh (PageAllocator.osFaithful_fresh demoEnv)
      PageAllocator.noRelease_fresh demoOpsDone demoDone demoOpsDone_respects
      demoOpsDone_run rfl⟩,
    ⟨rfl, rfl, teardown_releases_reserved demoEnv demoEnv_distinct demoSpill
      demoSpill_owned demoSpill_counted demoSpill_osFaithful demoSpill_noRelease
      demoSpillOpsDone demoSpillDone demoSpillOpsDone_respects demoSpillOpsDone_run rfl⟩⟩

/-- C6 (alignment of results). Start from any allocator state whose cached
addresses (in either free list) and previously returned addresses are multiples
of `PAGE_SIZE`; a freshly constructed allocator, which has none, is one such
state, and so is a state whose secondary free list is populated. In every run
from it in which only addresses previously returned by `allocate` are
deallocated, every address returned by an `allocate` call, whether popped from
the primary list, popped from the secondary list or freshly reserved from the
OS, is a multiple of `PAGE_SIZE`. -/
theorem results_aligned (env : Env) (st0 : Session) (hal0 : Aligned env st0)
    (ops : List Op) (st : Session)
    (hok : Session.respects Session.returnedOk env st0 ops = true)
    (hrun : Session.run env st0 ops = some st) :
    ∀ p, p ∈ st.returned → p % env.PAGE_SIZE = 0 := by
  have hal : Aligned env st :=
    Session.run_invariant env Session.returnedOk (Aligned env) (Session.aligned_step env)
      ops st0 st hal0 hok hrun
  intro p hp
  exact hal p (List.mem_append_right _ hp)

/-- Witness of C6: from the freshly constructed allocator the run `demoCacheOps`
returns 65536 from the OS, then again from the primary free list, then 131072
from the OS; from `demoSpill` the run `demoSpillOps` returns 65536 from the
primary free list and then 131072 from the secondary free list. -/
theorem results_aligned_witness :
    (Session.respects Session.returnedOk demoEnv Session.fresh demoCacheOps = true ∧
      Session.run demoEnv Session.fresh demoCacheOps = some demoCache ∧
      demoCache.returned = [131072, 65536, 65536] ∧
      131072 % demoEnv.PAGE_SIZE = 0 ∧
      ∀ p, p ∈ demoCache.returned → p % demoEnv.PAGE_SIZE = 0) ∧
    (Session.respects Session.returnedOk demoEnv demoSpill demoSpillOps = true ∧
      Session.run demoEnv demoSpill demoSpillOps = some demoSpillLive ∧
      demoSpillLive.returned = [131072, 65536] ++ demoSpill.returned ∧
      131072 % demoEnv.PAGE_SIZE = 0 ∧
      ∀ p, p ∈ demoSpillLive.returned → p % demoEnv.PAGE_SIZE = 0) :=
  ⟨⟨by decide, by decide, rfl,
      results_aligned demoEnv Session.fresh (Session.aligned_fresh demoEnv) demoCacheOps
        demoCache (by decide) (by decide) 131072 (by decide),
      results_aligned demoEnv Session.fresh (Session.aligned_fresh demoEnv) demoCacheOps
        demoCache (by decide) (by decide)⟩,
    ⟨by decide, demoSpillOps_run, rfl,
      results_aligned demoEnv demoSpill demoSpill_aligned demoSpillOps demoSpillLive
        (by decide) demoSpillOps_run 131072 (by decide),
      results_aligned demoEnv demoSpill demoSpill_aligned demoSpillOps demoSpillLive
        (by decide) demoSpillOps_run⟩⟩

/-- Counterexample to C7 as stated: with an OS alignment of 4096 and a
`PAGE_SIZE` of 16384, both positive, the OS alignment evenly divides `PAGE_SIZE`
and yet the constructor's assertion fails. -/
theorem ctor_precondition_counterexample :
    0 < bigPageEnv.getMemPageAlignment ∧ 0 < bigPageEnv.PAGE_SIZE ∧
    bigPageEnv.PAGE_SIZE % bigPageEnv.getMemPageAlignment = 0 ∧
    PageAllocator.ctorAssert bigPageEnv = false ∧
    PageAllocator.ctor bigPageEnv = none := by
  decide

/-- C7, amended (construction precondition). For all values of the OS-reported
minimum page alignment `A` and of `PAGE_SIZE`, the constructor's assertion passes,
and the constructor returns, if and only if `PAGE_SIZE` evenly divides `A`
(`A mod PAGE_SIZE = 0`), that is, the OS alignment is a multiple of `PAGE_SIZE`. -/
theorem ctor_precondition (env : Env) :
    (PageAllocator.ctorAssert env = true ↔ env.getMemPageAlignment % env.PAGE_SIZE = 0) ∧
    (PageAllocator.ctorAssert env = true ↔ env.PAGE_SIZE ∣ env.getMemPageAlignment) ∧
    ((PageAllocator.ctor env).isSome = true ↔ env.PAGE_SIZE ∣ env.getMemPageAlignment) := by
  have h1 : PageAllocator.ctorAssert env = true ↔
      env.getMemPageAlignment % env.PAGE_SIZE = 0 := by
    simp [PageAllocator.ctorAssert]
  have h2 : PageAllocator.ctorAssert env = true ↔
      env.PAGE_SIZE ∣ env.getMemPageAlignment := by
    rw [h1, Nat.dvd_iff_mod_eq_zero]
  refine ⟨h1, h2, ?_⟩
  rw [← h2]
  unfold PageAllocator.ctor
  by_cases h : PageAllocator.ctorAssert env = true
  · simp [h]
  · simp [h]

/-- C8 (effect and frame of `deallocate`). For every allocator state, address
`p` and lock flag, `deallocate(p, lock)` decreases `allocated_count` by exactly
one, leaves `reserved_count` unchanged, makes no OS call (no reserve, commit or
release; the calls it adds to the trace are mutex calls only), removes nothing
from either free list and adds exactly one entry, `p`, on top of the primary
free list, the secondary list being unchanged. -/
theorem deallocate_effect (s : PageAllocator) (p : Addr) (lock : Bool) :
    (s.deallocate p lock).allocated_count = s.allocated_count - 1 ∧
    (s.deallocate p lock).reserved_count = s.reserved_count ∧
    osCalls (s.deallocate p lock).trace = osCalls s.trace ∧
    reservedAddrs (s.deallocate p lock).trace = reservedAddrs s.trace ∧
    commits (s.deallocate p lock).trace = commits s.trace ∧
    releases (s.deallocate p lock).trace = releases s.trace ∧
    (s.deallocate p lock).free_pages.primary = p :: s.free_pages.primary ∧
    (s.deallocate p lock).free_pages.secondary = s.free_pages.secondary := by
  refine ⟨rfl, rfl, ?_, PageAllocator.reservedAddrs_deallocate s p lock,
    PageAllocator.commits_deallocate s p lock, PageAllocator.releases_deallocate s p lock,
    rfl, rfl⟩
  rw [PageAllocator.deallocate_eq]
  cases lock <;> simp [osCalls_append, osCalls]

/-- C9 (strict source priority of `allocate`). For an allocator whose
constructor assertion passed, on an OS whose `os::memReserve` returns an address
aligned to the page alignment it reports, for every allocator state and lock
flag `allocate(lock)` returns and behaves as the reference `AllocateRef`. If the
primary list is non-empty it returns the address popped from the primary list
and leaves the secondary list and `reserved_count` unchanged, with no OS call and
no mutex acquisition; otherwise, if the secondary list is non-empty it returns
the address popped from the secondary list and leaves `reserved_count` unchanged,
with no OS call; otherwise it increases `reserved_count` by exactly one, calls
`os::memReserve(PAGE_SIZE)` and then `os::memCommit` on the reserved address with
`PAGE_SIZE`, and returns that address. -/
theorem allocate_reference (env : Env) (hc : PageAllocator.ctorAssert env = true)
    (s : PageAllocator) (lock : Bool)
    (hos : env.memReserve (reservedAddrs s.trace).length env.PAGE_SIZE
      % env.getMemPageAlignment = 0) :
    ∃ p s1, s.allocate env lock = some (p, s1) ∧ AllocateRef env s p s1 := by
  obtain ⟨p, s1, hr⟩ := PageAllocator.allocate_isSome env s lock
    (PageAllocator.allocAssert_of_aligned env hc _ hos)
  exact ⟨p, s1, hr, PageAllocator.allocateRef_of_allocate env s lock p s1 hr⟩

/-- Witness of C9: the three branches of `allocate` on an OS with alignment 65536
and pages of 4096 bytes. `demoSpill.pa` has a page in its primary list,
`demoSpillSecond` has an empty primary list and pages in its secondary list, and
the freshly constructed allocator has both lists empty. -/
theorem allocate_reference_witness :
    PageAllocator.ctorAssert demoEnv = true ∧
    (demoSpill.pa.free_pages.primary = [65536] ∧
      ∃ p s1, demoSpill.pa.allocate demoEnv true = some (p, s1) ∧
        AllocateRef demoEnv demoSpill.pa p s1) ∧
    (demoSpillSecond.free_pages.primary = [] ∧
      demoSpillSecond.free_pages.secondary = [131072, 196608] ∧
      ∃ p s1, demoSpillSecond.allocate demoEnv true = some (p, s1) ∧
        AllocateRef demoEnv demoSpillSecond p s1) ∧
    (PageAllocator.fresh.free_pages.primary = [] ∧
      PageAllocator.fresh.free_pages.secondary = [] ∧
      ∃ p s1, PageAllocator.fresh.allocate demoEnv true = some (p, s1) ∧
        AllocateRef demoEnv PageAllocator.fresh p s1) :=
  ⟨by decide,
    ⟨rfl, allocate_reference demoEnv (by decide) demoSpill.pa true (by decide)⟩,
    ⟨rfl, rfl, allocate_reference demoEnv (by decide) demoSpillSecond true (by decide)⟩,
    ⟨rfl, rfl, allocate_reference demoEnv (by decide) PageAllocator.fresh true (by decide)⟩⟩

/-- C10 (page conservation). Start from any allocator state in which
`reserved_count` is `allocated_count` plus the number of addresses in the primary
free list plus the number of addresses in the secondary free list; a freshly
constructed allocator is one such state, and so is a state whose secondary free
list is populated. In every state reached from it by a sequence of `allocate`
and `deallocate` calls the same equation holds; `reserved_count` does not
decrease over any further calls; and when the destructor's leak assertion
passes, the destructor returns and the calls it makes are `reserved_count` calls
of `os::memRelease`. -/
theorem page_conservation (env : Env) (st0 : Session) (hcons0 : Conserved st0.pa)
    (ops : List Op) (st : Session)
    (hrun : Session.run env st0 ops = some st) :
    ((st.pa.reserved_count : Int) = st.pa.allocated_count
        + (st.pa.free_pages.primary.length : Int)
        + (st.pa.free_pages.secondary.length : Int)) ∧
    (∀ ops2 st2, Session.run env st ops2 = some st2 →
      st.pa.reserved_count ≤ st2.pa.reserved_count) ∧
    (PageAllocator.dtorAssert st.pa = true →
      ∃ s1 calls, PageAllocator.dtor env st.pa = some s1 ∧
        s1.trace = st.pa.trace ++ calls ∧
        calls.length = st.pa.reserved_count ∧
        (releases calls).length = st.pa.reserved_count) := by
  have hcons : Conserved st.pa :=
    Session.run_pa_invariant env Conserved (PageAllocator.conserved_allocate env)
      PageAllocator.conserved_deallocate ops st0 st hcons0 hrun
  refine ⟨hcons, fun ops2 st2 h2 => Session.run_reserved_count_mono env ops2 st st2 h2, ?_⟩
  intro hA
  have hzero : st.pa.allocated_count = 0 := by
    simpa [PageAllocator.dtorAssert] using hA
  have hlen : st.pa.free_pages.primary.length + st.pa.free_pages.secondary.length
      = st.pa.reserved_count := by
    unfold Conserved at hcons
    rw [hzero] at hcons
    omega
  refine ⟨_, PageAllocator.releaseEvents env st.pa.free_pages.primary
      ++ PageAllocator.releaseEvents env st.pa.free_pages.secondary,
    PageAllocator.dtor_eq env st.pa hzero, by simp [List.append_assoc], ?_, ?_⟩
  · simp [PageAllocator.releaseEvents, hlen]
  · simp [releases_append, PageAllocator.releases_releaseEvents, hlen]

/-- Witness of C10: after `demoOpsDone` from the freshly constructed allocator two
pages are reserved and both are cached in the primary list; after
`demoSpillOpsDone` from `demoSpill` three pages are reserved, two cached in the
primary list and one in the secondary list, and the destructor makes three
release calls. -/
theorem page_conservation_witness :
    (Session.run demoEnv Session.fresh demoOpsDone = some demoDone ∧
      ((demoDone.pa.reserved_count : Int) = demoDone.pa.allocated_count
        + (demoDone.pa.free_pages.primary.length : Int)
        + (demoDone.pa.free_pages.secondary.length : Int)) ∧
      ∃ s1 calls, PageAllocator.dtor demoEnv demoDone.pa = some s1 ∧
        s1.trace = demoDone.pa.trace ++ calls ∧
        calls.length = demoDone.pa.reserved_count ∧
        (releases calls).length = demoDone.pa.reserved_count) ∧
    (Session.run demoEnv demoSpill demoSpillOpsDone = some demoSpillDone ∧
      demoSpillDone.pa.free_pages.secondary = [196608] ∧
      demoSpillDone.pa.reserved_count = 3 ∧
      ((demoSpillDone.pa.reserved_count : Int) = demoSpillDone.pa.allocated_count
        + (demoSpillDone.pa.free_pages.primary.length : Int)
        + (demoSpillDone.pa.free_pages.secondary.length : Int)) ∧
      ∃ s1 calls, PageAllocator.dtor demoEnv demoSpillDone.pa = some s1 ∧
        s1.trace = demoSpillDone.pa.trace ++ calls ∧
        calls.length = demoSpillDone.pa.reserved_count ∧
        (releases calls).length = demoSpillDone.pa.reserved_count) :=
  ⟨⟨demoOpsDone_run,
      (page_conservation demoEnv Session.fresh PageAllocator.conserved_fresh demoOpsDone
        demoDone demoOpsDone_run).1,
      (page_conservation demoEnv Session.fresh PageAllocator.conserved_fresh demoOpsDone
        demoDone demoOpsDone_run).2.2 (by decide)⟩,
    ⟨demoSpillOpsDone_run, rfl, rfl,
      (page_conservation demoEnv demoSpill demoSpill_conserved demoSpillOpsDone
        demoSpillDone demoSpillOpsDone_run).1,
      (page_conservation demoEnv demoSpill demoSpill_conserved demoSpillOpsDone
        demoSpillDone demoSpillOpsDone_run).2.2 (by decide)⟩⟩

/-- C11 (the alignment assertion in `allocate` cannot fail). If the
constructor's assertion as coded passed (`os::getMemPageAlignment() mod PAGE_SIZE
= 0`; for every `PAGE_SIZE`, so in particular for `PAGE_SIZE > 0`), then every
address that is a multiple of `os::getMemPageAlignment()` passes the assertion
`uintptr(mem) mod PAGE_SIZE = 0`; and in every state in which `allocate` takes
the OS-fallback path (both free lists empty) with `os::memReserve` returning
such an address, the assertion holds and `allocate` returns that address: the
failing branch is not taken. -/
theorem alloc_assert_cannot_fail (env : Env)
    (hc : PageAllocator.ctorAssert env = true) :
    (∀ mem : Addr, mem % env.getMemPageAlignment = 0 →
      PageAllocator.allocAssert env mem = true ∧ mem % env.PAGE_SIZE = 0) ∧
    (∀ (s : PageAllocator) (lock : Bool),
      s.free_pages.primary = [] → s.free_pages.secondary = [] →
      env.memReserve (reservedAddrs s.trace).length env.PAGE_SIZE
        % env.getMemPageAlignment = 0 →
      s.allocate env lock ≠ none ∧
      ∃ s1, s.allocate env lock =
        some (env.memReserve (reservedAddrs s.trace).length env.PAGE_SIZE, s1)) := by
  have hdiv : env.PAGE_SIZE ∣ env.getMemPageAlignment := by
    apply Nat.dvd_of_mod_eq_zero
    simpa [PageAllocator.ctorAssert] using hc
  have hmem : ∀ mem : Addr, mem % env.getMemPageAlignment = 0 →
      PageAllocator.allocAssert env mem = true ∧ mem % env.PAGE_SIZE = 0 := by
    intro mem hm
    have h1 : env.PAGE_SIZE ∣ mem := dvd_trans hdiv (Nat.dvd_of_mod_eq_zero hm)
    have h2 : mem % env.PAGE_SIZE = 0 := Nat.mod_eq_zero_of_dvd h1
    exact ⟨by simp [PageAllocator.allocAssert, h2], h2⟩
  refine ⟨hmem, ?_⟩
  intro s lock hp hs hos
  have ha := (hmem _ hos).1
  have hres := PageAllocator.allocate_os env s lock hp hs
  rw [if_pos ha] at hres
  exact ⟨by rw [hres]; simp, _, hres⟩

/-- Witness of C11: with pages of 4096 bytes and an OS alignment of 65536 the
constructor's assertion passes, and the first `allocate` of a fresh allocator,
which takes the OS-fallback path and is given the address 65536, passes the
alignment assertion and returns 65536. -/
theorem alloc_assert_cannot_fail_witness :
    PageAllocator.ctorAssert demoEnv = true ∧
    0 < demoEnv.PAGE_SIZE ∧
    65536 % demoEnv.getMemPageAlignment = 0 ∧
    (PageAllocator.allocAssert demoEnv 65536 = true ∧ 65536 % demoEnv.PAGE_SIZE = 0) ∧
    (PageAllocator.fresh.allocate demoEnv true ≠ none ∧
      ∃ s1, PageAllocator.fresh.allocate demoEnv true =
        some (demoEnv.memReserve (reservedAddrs PageAllocator.fresh.trace).length
          demoEnv.PAGE_SIZE, s1)) :=
  ⟨by decide, by decide, by decide,
    (alloc_assert_cannot_fail demoEnv (by decide)).1 65536 (by decide),
    (alloc_assert_cannot_fail demoEnv (by decide)).2 PageAllocator.fresh true rfl rfl
      (by decide)⟩

end Lumix
